import Mathlib

/-!
Verification development for the support-api service (`main.py`).

The service is a FastAPI app over a Firestore collection `support_tickets`
plus two AI-analysis helpers.  We shallowly embed:

* Python strings as `List Char` (Python `str` is a sequence of code points,
  and slicing such as `s[:100]` is by code point);
* the JSON values handled by `json.loads` / the fallback dictionaries as an
  inductive `Json` (JSON numbers are modelled as integers; float literals
  are outside the model);
* the regex-based code-fence stripping
  (`re.sub(r'```json\s*', '', t)`, `re.sub(r'```.*$', '', t, flags=re.MULTILINE)`,
  `str.strip`) as executable scanners;
* Firestore as an association list from document id to document;
* `uuid.uuid4()` and `datetime.now(timezone.utc)` as oracle streams carried
  in the system state (`Sys`), consumed in program order;
* `model.generate_content` as a function from the prompt to either the
  response text or the `str(e)` of a raised exception.
-/

namespace SupportApi

/-- Python string characters. -/
abbrev Str := List Char

/-- ASCII whitespace recognised both by the regex class `\s` and by
`str.strip` (space, tab, newline, carriage return, vertical tab, form feed).
Exotic Unicode whitespace is outside the model. -/
def isPySpace (c : Char) : Bool :=
  c = ' ' || c = '\t' || c = '\n' || c = '\r' || c = Char.ofNat 11 || c = Char.ofNat 12

/-- `leadsWith p l` is true when `p` is a prefix of `l` (Python
`l.startswith(p)`, used to model literal-regex matching). -/
def leadsWith : Str → Str → Bool
  | [], _ => true
  | _ :: _, [] => false
  | p :: ps, c :: cs => p == c && leadsWith ps cs

/-- The literal part of the first regex, ` ```json `. -/
def fenceJson : Str := "```json".data

/-- A bare fence line ` ``` `. -/
def fence3 : Str := "```".data

/-- Fuel-driven scanner for `re.sub(r'```json\s*', '', text)`: scanning left
to right, every occurrence of the literal ` ```json ` together with the
maximal following whitespace run is deleted; scanning resumes after the
deleted match (matches are non-overlapping, as in Python `re.sub`). -/
def sub1F : Nat → Str → Str
  | 0, l => l
  | _ + 1, [] => []
  | fuel + 1, c :: rest =>
    if leadsWith fenceJson (c :: rest) then
      sub1F fuel (((c :: rest).drop 7).dropWhile isPySpace)
    else
      c :: sub1F fuel rest

/-- `re.sub(r'```json\s*', '', text)`. -/
def sub1 (l : Str) : Str := sub1F l.length l

/-- One line of `re.sub(r'```.*$', '', text, flags=re.MULTILINE)`: within a
line, everything from the first ` ``` ` to the end of the line is deleted. -/
def lineStrip : Str → Str
  | [] => []
  | c :: rest =>
    if leadsWith fence3 (c :: rest) then []
    else c :: lineStrip rest

/-- Split on `'\n'` (Python line structure for a MULTILINE regex; `$` matches
before each `'\n'` and at the end of the string, and `.` does not match
`'\n'`). -/
def mySplit : Str → List Str
  | [] => [[]]
  | c :: rest =>
    if c = '\n' then [] :: mySplit rest
    else
      match mySplit rest with
      | [] => [[c]]
      | h :: t => (c :: h) :: t

/-- Re-join lines with `'\n'`. -/
def myJoin : List Str → Str
  | [] => []
  | [x] => x
  | x :: xs => x ++ '\n' :: myJoin xs

/-- `re.sub(r'```.*$', '', text, flags=re.MULTILINE)`. -/
def sub2 (l : Str) : Str := myJoin ((mySplit l).map lineStrip)

/-- Remove trailing `str.strip` whitespace. -/
def stripEnd (l : Str) : Str := (l.reverse.dropWhile isPySpace).reverse

/-- Python `str.strip()`. -/
def pyStrip (l : Str) : Str := (stripEnd l).dropWhile isPySpace

/-- The full cleaning pipeline applied to `response.text` before
`json.loads` in both `analyze_tickets_with_ai` and `analyze_single_ticket`. -/
def cleanText (l : Str) : Str := pyStrip (sub2 (sub1 l))

/-- The character `{` (kept out of string literals). -/
def lbrace : Char := Char.ofNat 123

/-- The character `}`. -/
def rbrace : Char := Char.ofNat 125

/-- JSON values as decoded by `json.loads` and as built by the fallback
dictionary literals.  Numbers are modelled as integers (float literals are
outside the model); object members keep their textual order. -/
inductive Json where
  | null : Json
  | bool (b : Bool) : Json
  | num (n : Int) : Json
  | str (s : Str) : Json
  | arr (elems : List Json) : Json
  | obj (members : List (Str × Json)) : Json

/-- Decimal digit character. -/
def digitChar (d : Nat) : Char := Char.ofNat (48 + d)

/-- Decimal digits of a natural number, most significant first. -/
def natChars (n : Nat) : Str :=
  if _ : n < 10 then [digitChar n]
  else natChars (n / 10) ++ [digitChar (n % 10)]
termination_by n
decreasing_by exact Nat.div_lt_self (by omega) (by omega)

/-- Decimal rendering of an integer. -/
def serInt (n : Int) : Str :=
  if n < 0 then '-' :: natChars n.natAbs else natChars n.natAbs

/-- Lower-case hex digit. -/
def hexDigitCh (d : Nat) : Char :=
  if d < 10 then digitChar d else Char.ofNat (87 + d)

/-- JSON string escaping of one character (as in `json.dumps`). -/
def escChar (c : Char) : Str :=
  if c = '"' then ['\\', '"']
  else if c = '\\' then ['\\', '\\']
  else if c = '\n' then ['\\', 'n']
  else if c = '\r' then ['\\', 'r']
  else if c = '\t' then ['\\', 't']
  else if c = Char.ofNat 8 then ['\\', 'b']
  else if c = Char.ofNat 12 then ['\\', 'f']
  else if c.toNat < 32 then
    ['\\', 'u', '0', '0', hexDigitCh (c.toNat / 16), hexDigitCh (c.toNat % 16)]
  else [c]

/-- JSON string escaping. -/
def escStr (s : Str) : Str := s.foldr (fun c acc => escChar c ++ acc) []

mutual

/-- A JSON text for a value (compact `json.dumps`-style rendering with the
default `', '` and `': '` separators). -/
def ser : Json → Str
  | .null => "null".data
  | .bool true => "true".data
  | .bool false => "false".data
  | .num n => serInt n
  | .str s => '"' :: (escStr s ++ ['"'])
  | .arr xs => '[' :: (serList xs ++ [']'])
  | .obj kvs => lbrace :: (serObj kvs ++ [rbrace])

/-- Array elements, comma-separated. -/
def serList : List Json → Str
  | [] => []
  | [v] => ser v
  | v :: w :: vs => ser v ++ ',' :: ' ' :: serList (w :: vs)

/-- Object members, comma-separated. -/
def serObj : List (Str × Json) → Str
  | [] => []
  | [(k, v)] => '"' :: (escStr k ++ '"' :: ':' :: ' ' :: ser v)
  | (k, v) :: m :: kvs =>
    ('"' :: (escStr k ++ '"' :: ':' :: ' ' :: ser v)) ++ ',' :: ' ' :: serObj (m :: kvs)

end

/-- Whitespace skipped between JSON tokens by `json.loads`. -/
def isJsonWs (c : Char) : Bool := c = ' ' || c = '\t' || c = '\n' || c = '\r'

/-- ASCII decimal digit test. -/
def isDigitCh (c : Char) : Bool := 48 ≤ c.toNat && c.toNat ≤ 57

/-- Value of a decimal digit character. -/
def digitVal (c : Char) : Nat := c.toNat - 48

/-- ASCII hex digit test. -/
def isHexCh (c : Char) : Bool :=
  isDigitCh c || (97 ≤ c.toNat && c.toNat ≤ 102) || (65 ≤ c.toNat && c.toNat ≤ 70)

/-- Value of a hex digit character. -/
def hexVal (c : Char) : Nat :=
  if isDigitCh c then c.toNat - 48
  else if 97 ≤ c.toNat then c.toNat - 87
  else c.toNat - 55

/-- Decoding of a simple escape character in a JSON string. -/
def escDecode (e : Char) : Option Char :=
  if e = '"' then some '"'
  else if e = '\\' then some '\\'
  else if e = '/' then some '/'
  else if e = 'b' then some (Char.ofNat 8)
  else if e = 'f' then some (Char.ofNat 12)
  else if e = 'n' then some '\n'
  else if e = 'r' then some '\r'
  else if e = 't' then some '\t'
  else none

/-- Body of a JSON string after the opening quote; fails on an unterminated
or badly-escaped string (as `json.loads` does). -/
def parseStrBody : Nat → Str → Except Str (Str × Str)
  | 0, _ => .error "fuel exhausted".data
  | _ + 1, [] => .error "Unterminated string".data
  | fuel + 1, c :: rest =>
    if c = '"' then .ok ([], rest)
    else if c = '\\' then
      match rest with
      | [] => .error "Unterminated string".data
      | e :: r2 =>
        if e = 'u' then
          match r2 with
          | h1 :: h2 :: h3 :: h4 :: r3 =>
            if isHexCh h1 && isHexCh h2 && isHexCh h3 && isHexCh h4 then
              match parseStrBody fuel r3 with
              | .ok (s, r4) =>
                .ok (Char.ofNat
                  (((hexVal h1 * 16 + hexVal h2) * 16 + hexVal h3) * 16 + hexVal h4) :: s, r4)
              | .error err => .error err
            else .error "Invalid hex escape".data
          | _ => .error "Invalid hex escape".data
        else
          match escDecode e with
          | some d =>
            match parseStrBody fuel r2 with
            | .ok (s, r4) => .ok (d :: s, r4)
            | .error err => .error err
          | none => .error "Invalid escape".data
    else
      match parseStrBody fuel rest with
      | .ok (s, r4) => .ok (c :: s, r4)
      | .error err => .error err

/-- Does the remaining input continue with a float marker?  (Float literals
are outside the model; see `Json`.) -/
def headFloatMark : Str → Bool
  | c :: _ => c = '.' || c = 'e' || c = 'E'
  | [] => false

/-- Integer literal parsing. -/
def parseNum (l : Str) : Except Str (Json × Str) :=
  let sign : Bool := match l with
    | '-' :: _ => true
    | _ => false
  let l1 := if sign then l.drop 1 else l
  let digits := l1.takeWhile isDigitCh
  let rest := l1.dropWhile isDigitCh
  if digits = [] then .error "Expecting value".data
  else if headFloatMark rest then .error "float literal outside model".data
  else
    let v : Nat := digits.foldl (fun acc c => acc * 10 + digitVal c) 0
    .ok (.num (if sign then -(v : Int) else (v : Int)), rest)

mutual

/-- One JSON value (strict, as `json.loads`), returning the remaining
input. -/
def parseVal : Nat → Str → Except Str (Json × Str)
  | 0, _ => .error "fuel exhausted".data
  | fuel + 1, l =>
    let l1 := l.dropWhile isJsonWs
    if leadsWith "null".data l1 then .ok (.null, l1.drop 4)
    else if leadsWith "true".data l1 then .ok (.bool true, l1.drop 4)
    else if leadsWith "false".data l1 then .ok (.bool false, l1.drop 5)
    else
      match l1 with
      | [] => .error "Expecting value".data
      | c :: rest =>
        if c = '"' then
          match parseStrBody rest.length rest with
          | .ok (s, r) => .ok (.str s, r)
          | .error e => .error e
        else if c = '[' then
          match rest.dropWhile isJsonWs with
          | ']' :: r2 => .ok (.arr [], r2)
          | r1 =>
            match parseItems fuel r1 with
            | .ok (vs, r2) => .ok (.arr vs, r2)
            | .error e => .error e
        else if c = lbrace then
          let r1 := rest.dropWhile isJsonWs
          if leadsWith [rbrace] r1 then .ok (.obj [], r1.drop 1)
          else
            match parseMembers fuel r1 with
            | .ok (kvs, r2) => .ok (.obj kvs, r2)
            | .error e => .error e
        else if c = '-' || isDigitCh c then parseNum l1
        else .error "Expecting value".data

/-- Array elements after `[`. -/
def parseItems : Nat → Str → Except Str (List Json × Str)
  | 0, _ => .error "fuel exhausted".data
  | fuel + 1, l =>
    match parseVal fuel l with
    | .error e => .error e
    | .ok (v, r1) =>
      match r1.dropWhile isJsonWs with
      | ',' :: r2 =>
        match parseItems fuel r2 with
        | .ok (vs, r3) => .ok (v :: vs, r3)
        | .error e => .error e
      | ']' :: r2 => .ok ([v], r2)
      | _ => .error "Expecting delimiter".data

/-- Object members after the opening brace. -/
def parseMembers : Nat → Str → Except Str (List (Str × Json) × Str)
  | 0, _ => .error "fuel exhausted".data
  | fuel + 1, l =>
    match l with
    | '"' :: r1 =>
      match parseStrBody r1.length r1 with
      | .error e => .error e
      | .ok (k, r2) =>
        match r2.dropWhile isJsonWs with
        | ':' :: r3 =>
          match parseVal fuel r3 with
          | .error e => .error e
          | .ok (v, r4) =>
            match r4.dropWhile isJsonWs with
            | ',' :: r5 =>
              match parseMembers fuel (r5.dropWhile isJsonWs) with
              | .ok (kvs, r6) => .ok ((k, v) :: kvs, r6)
              | .error e => .error e
            | r5 =>
              if leadsWith [rbrace] r5 then .ok ([(k, v)], r5.drop 1)
              else .error "Expecting delimiter".data
        | _ => .error "Expecting colon delimiter".data
    | _ => .error "Expecting property name in double quotes".data

end

/-- `json.loads`: strict decoding of a complete JSON document. -/
def parseJson (l : Str) : Except Str Json :=
  match parseVal (l.length + 1) l with
  | .error e => .error e
  | .ok (v, rest) =>
    if rest.dropWhile isJsonWs = [] then .ok v
    else .error "Extra data".data

/-- §4.3 Response-Extraction Parser, as inlined at both AI call sites:
strip the code-fence markers and surrounding whitespace, then decode
strictly.  It is a total function into `Except`: a decode failure is
signalled as a value, never an uncaught fault. -/
def extract (raw : Str) : Except Str Json := parseJson (cleanText raw)

/-- First member of a decoded JSON object with the given key
(Python `d.get(k)`). -/
def lookupMember : List (Str × Json) → Str → Option Json
  | [], _ => none
  | (k', v) :: rest, k => if k' = k then some v else lookupMember rest k

/-- `d.get(k)` on a JSON value (`none` unless an object with the key). -/
def jGet (j : Json) (k : Str) : Option Json :=
  match j with
  | .obj kvs => lookupMember kvs k
  | _ => none

/-- `d.get(k)` specialised to string values. -/
def jGetStr (j : Json) (k : Str) : Option Str :=
  match jGet j k with
  | some (.str s) => some s
  | _ => none

/-- `k in d` on a JSON object. -/
def jHasKey (j : Json) (k : Str) : Bool := (jGet j k).isSome

/-- One entry of a ticket's `responses` array, as appended by
`respond_to_ticket`.  `message` is `response.get("message")`, which is
`None` when the key is absent. -/
structure ResponseDoc where
  id : Str
  message : Option Str
  responder : Str
  created_at : Nat
  deriving DecidableEq

/-- A document of the `support_tickets` collection, exactly the fields the
service writes in `create_ticket` (timestamps are abstract instants). -/
structure TicketDoc where
  ticket_id : Str
  user_id : Str
  email : Str
  subject : Str
  message : Str
  category : Str
  analysis_id : Option Str
  status : Str
  created_at : Nat
  updated_at : Nat
  responses : List ResponseDoc
  deriving DecidableEq

/-- The request model of `POST /api/tickets` (pydantic `SupportTicket`; the
`category="general"` and `analysis_id=None` defaults are applied when the
request is parsed, before `create_ticket` runs). -/
structure SupportTicket where
  subject : Str
  message : Str
  category : Str
  user_id : Str
  email : Str
  analysis_id : Option Str
  deriving DecidableEq

/-- The `response: dict` body of `POST /admin/ticket/{ticket_id}/respond`.
FastAPI performs no validation on a plain `dict`; the handler reads it only
through `.get`, so `none` models an absent key. -/
structure RespondBody where
  message : Option Str
  responder : Option Str
  status : Option Str
  deriving DecidableEq

/-- The Firestore collection `support_tickets`, addressed by document id.
Overwriting (`.set` / `.update` of every field) is modelled by shadowing:
`getDoc` returns the most recent binding. -/
abbrev Store := List (Str × TicketDoc)

/-- `collection.document(tid).get()`. -/
def getDoc : Store → Str → Option TicketDoc
  | [], _ => none
  | (k, d) :: rest, tid => if k = tid then some d else getDoc rest tid

/-- `collection.document(tid).set(doc)` (also the full-field `.update`). -/
def setDoc (s : Store) (tid : Str) (d : TicketDoc) : Store := (tid, d) :: s

/-- System state: the store plus the oracle streams for `uuid.uuid4()` and
`datetime.now(timezone.utc)`, consumed in program order.  `uuids i` is the
`i`-th generated identifier and `times i` the `i`-th observed instant. -/
structure Sys where
  store : Store
  uuids : Nat → Str
  uuidIx : Nat
  times : Nat → Nat
  timeIx : Nat

/-- `fastapi.HTTPException` as surfaced to the client: the response status
code and the detail message. -/
structure HTTPExc where
  status : Nat
  detail : Str
  deriving DecidableEq

/-- An exception live inside a handler's `try:` block.  Only
`HTTPException` is ever raised by this code's own statements; store or
template failures are external and outside the model. -/
inductive PyExc where
  | http (status : Nat) (detail : Str)
  deriving DecidableEq

/-- `str(e)` for an `HTTPException` (starlette renders
`f"{status_code}: {detail}"`). -/
def pyStr : PyExc → Str
  | .http st d => (Nat.repr st).data ++ ": ".data ++ d

/-- Detail of the two `HTTPException(404, ...)` raises. -/
def notFoundDetail : Str := "チケットが見つかりません".data

/-- The text-generation client (`model.generate_content`): from the prompt
to either `response.text` or the `str(e)` of a raised exception. -/
abbrev GenClient := Str → Except Str Str

/-- `f"ID: ..."` summary line for one ticket in the batch prompt
(first 100 code points of the message, `message[:100]`). -/
def ticketSummary (t : TicketDoc) : Str :=
  "ID: ".data ++ t.ticket_id ++ ", カテゴリ: ".data ++ t.category ++
    ", 件名: ".data ++ t.subject ++ ", 内容: ".data ++ t.message.take 100

/-- Fixed part of the batch prompt before the joined summaries. -/
def batchHeader : Str :=
  ("\n以下のサポートチケット情報を分析して、以下の形式でJSONレスポンスを生成してください：\n\nチケット情報:\n").data

/-- Fixed part of the batch prompt after the joined summaries. -/
def batchFooter : Str :=
  ("\n\n以下の形式で分析結果を返してください：\n\x7b\n  \"summary\": \"全体的な傾向の要約（3-4行）\",\n  \"common_issues\": [\"よくある問題1\", \"よくある問題2\", \"よくある問題3\"],\n  \"insights\": [\n    \"ユーザーのニーズに関するインサイト1\",\n    \"システム改善のヒント1\", \n    \"新機能開発のアイデア1\"\n  ],\n  \"recommendations\": [\n    \"短期的な改善提案1\",\n    \"中長期的な開発提案1\",\n    \"ユーザー体験向上提案1\"\n  ]\n\x7d\n").data

/-- The single prompt of `analyze_tickets_with_ai`: at most the first 10
tickets (`tickets[:10]`, caller order), summaries joined by `chr(10)`. -/
def mkBatchPrompt (tickets : List TicketDoc) : Str :=
  batchHeader ++ myJoin ((tickets.take 10).map ticketSummary) ++ batchFooter

/-- Fixed tail of the single-ticket prompt. -/
def singleFooter : Str :=
  ("\n\n以下の形式でJSONレスポンスを生成してください：\n\x7b\n  \"urgency\": \"高/中/低\",\n  \"category_suggestion\": \"適切なカテゴリ\",\n  \"response_suggestion\": \"推奨される返信内容\",\n  \"related_improvements\": [\"関連する改善提案1\", \"関連する改善提案2\"]\n\x7d\n").data

/-- The prompt of `analyze_single_ticket`. -/
def mkSinglePrompt (t : TicketDoc) : Str :=
  "\n以下のサポートチケットを分析してください：\n\n件名: ".data ++ t.subject ++
    "\nカテゴリ: ".data ++ t.category ++ "\n内容: ".data ++ t.message ++
    "\nユーザー: ".data ++ t.email ++ singleFooter

/-- Early return of `analyze_tickets_with_ai` on an empty list.  Note that
the dictionary literal carries no `common_issues` key. -/
def emptyBatchResult : Json :=
  .obj [("summary".data, .str "チケットがありません".data),
        ("insights".data, .arr []),
        ("recommendations".data, .arr [])]

/-- Batch fallback when `json.loads` fails: the first 200 code points of
`response.text` followed by `"..."`, plus fixed placeholder lists. -/
def batchParseFallback (text : Str) : Json :=
  .obj [("summary".data, .str (text.take 200 ++ "...".data)),
        ("common_issues".data, .arr [.str "分析中".data, .str "データ処理中".data]),
        ("insights".data, .arr [.str "AI分析を実行中です".data]),
        ("recommendations".data, .arr [.str "分析結果を確認中です".data])]

/-- Batch fallback when the generation client raises. -/
def batchErrFallback (e : Str) : Json :=
  .obj [("summary".data, .str ("AI分析エラー: ".data ++ e)),
        ("common_issues".data, .arr [.str "分析エラー".data]),
        ("insights".data, .arr [.str "AI分析が利用できません".data]),
        ("recommendations".data, .arr [.str "手動での分析をお勧めします".data])]

/-- Single-ticket fallback when `json.loads` fails (the
`ticket.get('category', 'general')` default never fires in the model since
every `TicketDoc` carries a category). -/
def singleParseFallback (t : TicketDoc) : Json :=
  .obj [("urgency".data, .str "中".data),
        ("category_suggestion".data, .str t.category),
        ("response_suggestion".data, .str "詳細を確認して適切に対応してください。".data),
        ("related_improvements".data,
          .arr [.str "ユーザーガイドの改善".data, .str "エラーメッセージの見直し".data])]

/-- Single-ticket fallback when the generation client raises. -/
def singleErrFallback (e : Str) : Json :=
  .obj [("urgency".data, .str "不明".data),
        ("category_suggestion".data, .str "分析エラー".data),
        ("response_suggestion".data, .str ("AI分析エラー: ".data ++ e)),
        ("related_improvements".data, .arr [.str "手動分析が必要です".data])]

/-- `analyze_tickets_with_ai`.  The second component records the prompts
sent to the generation client (so "called exactly once" and "not called"
are statable).  The function is total: both the client failure and the
parse failure are absorbed into fallback values. -/
def analyze_tickets_with_ai (client : GenClient) (tickets : List TicketDoc) :
    Json × List Str :=
  match tickets with
  | [] => (emptyBatchResult, [])
  | _ :: _ =>
    let prompt := mkBatchPrompt tickets
    match client prompt with
    | .error e => (batchErrFallback e, [prompt])
    | .ok text =>
      match extract text with
      | .ok j => (j, [prompt])
      | .error _ => (batchParseFallback text, [prompt])

/-- `analyze_single_ticket`, with the same conventions. -/
def analyze_single_ticket (client : GenClient) (ticket : TicketDoc) :
    Json × List Str :=
  let prompt := mkSinglePrompt ticket
  match client prompt with
  | .error e => (singleErrFallback e, [prompt])
  | .ok text =>
    match extract text with
    | .ok j => (j, [prompt])
    | .error _ => (singleParseFallback ticket, [prompt])

/-- The success envelope of `POST /api/tickets`. -/
def createSuccessJson (u : Str) : Json :=
  .obj [("status".data, .str "success".data),
        ("ticket_id".data, .str u),
        ("message".data, .str "お問い合わせを受け付けました".data)]

/-- `create_ticket`: a fresh id from the uuid stream, then the document
literal, whose `created_at` and `updated_at` are two separate
`datetime.now(timezone.utc)` calls (evaluated in that order).  The
`except` branch of the handler fires only on store failures, which are
external to the model, so the modelled handler always succeeds. -/
def create_ticket (t : SupportTicket) (s : Sys) : Json × Sys :=
  let u := s.uuids s.uuidIx
  let doc : TicketDoc := {
    ticket_id := u
    user_id := t.user_id
    email := t.email
    subject := t.subject
    message := t.message
    category := t.category
    analysis_id := t.analysis_id
    status := "open".data
    created_at := s.times s.timeIx
    updated_at := s.times (s.timeIx + 1)
    responses := [] }
  (createSuccessJson u,
   { s with store := setDoc s.store u doc,
            uuidIx := s.uuidIx + 1, timeIx := s.timeIx + 2 })

/-- Body of the `try:` of `GET /admin/ticket/{ticket_id}`: a missing
document raises `HTTPException(404, ...)`; otherwise the page renders the
ticket and the single-ticket insight. -/
def ticket_detail_inner (client : GenClient) (s : Sys) (tid : Str) :
    Except PyExc (TicketDoc × Json) :=
  match getDoc s.store tid with
  | none => .error (.http 404 notFoundDetail)
  | some doc => .ok (doc, (analyze_single_ticket client doc).1)

/-- `ticket_detail` with its `except Exception as e: raise
HTTPException(500, f"チケット詳細取得エラー: {str(e)}")`.  Since
`HTTPException` is an `Exception` subclass, the catch-all intercepts the
404 raised in the body and re-raises it as a 500. -/
def ticket_detail (client : GenClient) (s : Sys) (tid : Str) :
    Except HTTPExc (TicketDoc × Json) :=
  match ticket_detail_inner client s tid with
  | .ok page => .ok page
  | .error e => .error ⟨500, "チケット詳細取得エラー: ".data ++ pyStr e⟩

/-- The in-memory mutation of `respond_to_ticket` between the `.get()` and
the `.update()`: append one response (fresh uuid, `now` timestamp,
responder defaulted to `"admin"`), refresh `updated_at`, and overwrite
`status` only when the body provides one. -/
def buildRespondUpdate (doc : TicketDoc) (body : RespondBody) (u : Str)
    (t1 t2 : Nat) : TicketDoc :=
  { doc with
    responses := doc.responses ++
      [{ id := u
         message := body.message
         responder := body.responder.getD "admin".data
         created_at := t1 }]
    updated_at := t2
    status := body.status.getD doc.status }

/-- The success envelope of `POST /admin/ticket/{ticket_id}/respond`. -/
def respondSuccessJson : Json :=
  .obj [("status".data, .str "success".data),
        ("message".data, .str "返信を追加しました".data)]

/-- Body of the `try:` of `respond_to_ticket`: read the document, raise
404 if absent, else build the updated document and overwrite.  The uuid is
drawn first, then the response timestamp, then the `updated_at` timestamp
(program order of the `uuid.uuid4()` / `datetime.now` calls). -/
def respond_inner (s : Sys) (tid : Str) (body : RespondBody) :
    Except PyExc (Json × Sys) :=
  match getDoc s.store tid with
  | none => .error (.http 404 notFoundDetail)
  | some doc =>
    .ok (respondSuccessJson,
      { s with
        store := setDoc s.store tid
          (buildRespondUpdate doc body (s.uuids s.uuidIx)
            (s.times s.timeIx) (s.times (s.timeIx + 1)))
        uuidIx := s.uuidIx + 1
        timeIx := s.timeIx + 2 })

/-- `respond_to_ticket` with its catch-all `except` (same 404-to-500
conversion as `ticket_detail`).  On error the store is unchanged. -/
def respond_to_ticket (s : Sys) (tid : Str) (body : RespondBody) :
    Except HTTPExc Json × Sys :=
  match respond_inner s tid body with
  | .ok (j, s') => (.ok j, s')
  | .error e => (.error ⟨500, "返信追加エラー: ".data ++ pyStr e⟩, s)

/-- N sequential calls of `respond_to_ticket` on the same ticket id. -/
def respondN (s : Sys) (tid : Str) (bodies : List RespondBody) : Sys :=
  bodies.foldl (fun st b => (respond_to_ticket st tid b).2) s

/-- The fence wrapping of the testable property in §8:
`"```json\n" + text + "\n```"`. -/
def fenceWrap (t : Str) : Str := fenceJson ++ '\n' :: (t ++ '\n' :: fence3)

/-- A concrete system state with an empty store, for witnesses. -/
def sampleSys : Sys :=
  { store := [], uuids := fun _ => "u0".data, uuidIx := 0,
    times := fun i => i, timeIx := 0 }

/-- A concrete stored ticket, for witnesses. -/
def sampleTicketDoc : TicketDoc :=
  { ticket_id := "t1".data, user_id := "user1".data, email := "a@b.com".data,
    subject := "X".data, message := "Y".data, category := "billing".data,
    analysis_id := none, status := "open".data, created_at := 0,
    updated_at := 0, responses := [] }

/-- A concrete system state whose store holds `sampleTicketDoc`. -/
def sysWithTicket : Sys :=
  { store := [("t1".data, sampleTicketDoc)], uuids := fun _ => "u0".data,
    uuidIx := 0, times := fun i => i, timeIx := 0 }

/-- A concrete ticket payload, for witnesses. -/
def samplePayload : SupportTicket :=
  { subject := "X".data, message := "Y".data, category := "billing".data,
    user_id := "u1".data, email := "a@b.com".data, analysis_id := none }

/-- A generation client that always raises (its `str(e)` is `"boom"`). -/
def failClient : GenClient := fun _ => .error "boom".data

/-- A generation client that always returns the unparseable text
`"hello"`. -/
def okClient : GenClient := fun _ => .ok "hello".data

theorem leadsWith_iff (p l : Str) : leadsWith p l = true ↔ ∃ r, l = p ++ r := by
  induction p generalizing l with
  | nil => simp [leadsWith]
  | cons x xs ih =>
    cases l with
    | nil => simp [leadsWith]
    | cons c cs =>
      simp only [leadsWith, Bool.and_eq_true, beq_iff_eq, ih, List.cons_append,
        List.cons.injEq]
      constructor
      · rintro ⟨rfl, r, rfl⟩; exact ⟨r, rfl, rfl⟩
      · rintro ⟨r, rfl, rfl⟩; exact ⟨rfl, r, rfl⟩

/-- C1: the spec claims a plain 404 for an absent ticket id, but in the code
both `raise HTTPException(404, ...)` statements sit inside a `try:` whose
`except Exception as e:` re-raises *every* exception — `HTTPException`
included, since it subclasses `Exception` — as a 500.  So an absent ticket
id yields a 500 whose detail embeds the swallowed 404, on both
`GET /admin/ticket/{id}` and `POST /admin/ticket/{id}/respond`. -/
theorem c1_absent_ticket_gives_500 (s : Sys) (client : GenClient) (tid : Str)
    (body : RespondBody) (habs : getDoc s.store tid = none) :
    ticket_detail client s tid =
      .error ⟨500, "チケット詳細取得エラー: ".data ++ pyStr (.http 404 notFoundDetail)⟩ ∧
    (respond_to_ticket s tid body).1 =
      .error ⟨500, "返信追加エラー: ".data ++ pyStr (.http 404 notFoundDetail)⟩ := by
  constructor
  · simp [ticket_detail, ticket_detail_inner, habs]
  · simp [respond_to_ticket, respond_inner, habs]

/-- Witness for `c1_absent_ticket_gives_500` at an empty store and the
ticket id `"missing"`. -/
theorem c1_witness :
    getDoc sampleSys.store "missing".data = none ∧
    (ticket_detail okClient sampleSys "missing".data =
      .error ⟨500, "チケット詳細取得エラー: ".data ++ pyStr (.http 404 notFoundDetail)⟩ ∧
    (respond_to_ticket sampleSys "missing".data ⟨none, none, none⟩).1 =
      .error ⟨500, "返信追加エラー: ".data ++ pyStr (.http 404 notFoundDetail)⟩) :=
  ⟨rfl, c1_absent_ticket_gives_500 sampleSys okClient "missing".data ⟨none, none, none⟩ rfl⟩

/-- C2 (amended): under the model's uuid-freshness assumption (`uuid.uuid4`
collisions are ruled out by the oracle hypothesis) and monotonicity of the
two successive `datetime.now` reads, `create_ticket` persists a record with
`status="open"`, `responses=[]`, `created_at ≤ updated_at`, all payload
fields copied, leaves every other document untouched, and returns the
success envelope carrying the new id.  (`created_at = updated_at` is *not*
guaranteed: the two fields come from two separate `datetime.now` calls —
see the counterexample.) -/
theorem c2_create_ticket_ok (t : SupportTicket) (s : Sys)
    (hfresh : getDoc s.store (s.uuids s.uuidIx) = none)
    (hclock : s.times s.timeIx ≤ s.times (s.timeIx + 1)) :
    (∀ k, getDoc s.store k ≠ none → s.uuids s.uuidIx ≠ k) ∧
    jGet (create_ticket t s).1 "status".data = some (.str "success".data) ∧
    jGet (create_ticket t s).1 "ticket_id".data = some (.str (s.uuids s.uuidIx)) ∧
    (∀ k, k ≠ s.uuids s.uuidIx →
      getDoc (create_ticket t s).2.store k = getDoc s.store k) ∧
    ∃ d, getDoc (create_ticket t s).2.store (s.uuids s.uuidIx) = some d ∧
      d.status = "open".data ∧ d.responses = [] ∧
      d.created_at ≤ d.updated_at ∧
      d.ticket_id = s.uuids s.uuidIx ∧ d.subject = t.subject ∧
      d.message = t.message ∧ d.category = t.category ∧
      d.user_id = t.user_id ∧ d.email = t.email ∧
      d.analysis_id = t.analysis_id := by
  refine ⟨?_, rfl, rfl, ?_, ?_⟩
  · intro k hk heq
    rw [heq] at hfresh
    exact hk hfresh
  · intro k hk
    simp only [create_ticket, setDoc, getDoc]
    rw [if_neg (fun h => hk h.symm)]
  · refine ⟨{ ticket_id := s.uuids s.uuidIx
              user_id := t.user_id
              email := t.email
              subject := t.subject
              message := t.message
              category := t.category
              analysis_id := t.analysis_id
              status := "open".data
              created_at := s.times s.timeIx
              updated_at := s.times (s.timeIx + 1)
              responses := [] },
      ?_, rfl, rfl, hclock, rfl, rfl, rfl, rfl, rfl, rfl, rfl⟩
    simp [create_ticket, setDoc, getDoc]

/-- Witness for `c2_create_ticket_ok` on an empty store with clock `0, 1`. -/
theorem c2_witness :
    getDoc sampleSys.store (sampleSys.uuids sampleSys.uuidIx) = none ∧
    sampleSys.times sampleSys.timeIx ≤ sampleSys.times (sampleSys.timeIx + 1) ∧
    ((∀ k, getDoc sampleSys.store k ≠ none → sampleSys.uuids sampleSys.uuidIx ≠ k) ∧
    jGet (create_ticket samplePayload sampleSys).1 "status".data = some (.str "success".data) ∧
    jGet (create_ticket samplePayload sampleSys).1 "ticket_id".data =
      some (.str (sampleSys.uuids sampleSys.uuidIx)) ∧
    (∀ k, k ≠ sampleSys.uuids sampleSys.uuidIx →
      getDoc (create_ticket samplePayload sampleSys).2.store k = getDoc sampleSys.store k) ∧
    ∃ d, getDoc (create_ticket samplePayload sampleSys).2.store
        (sampleSys.uuids sampleSys.uuidIx) = some d ∧
      d.status = "open".data ∧ d.responses = [] ∧
      d.created_at ≤ d.updated_at ∧
      d.ticket_id = sampleSys.uuids sampleSys.uuidIx ∧
      d.subject = samplePayload.subject ∧
      d.message = samplePayload.message ∧ d.category = samplePayload.category ∧
      d.user_id = samplePayload.user_id ∧ d.email = samplePayload.email ∧
      d.analysis_id = samplePayload.analysis_id) :=
  ⟨rfl, by decide, c2_create_ticket_ok samplePayload sampleSys rfl (by decide)⟩

/-- C2 counterexample to `createdAt = updatedAt` as stated: with the clock
advancing by one tick between the two `datetime.now(timezone.utc)` calls of
the document literal, the persisted record has `created_at = 0` but
`updated_at = 1`. -/
theorem c2_counterexample :
    ((getDoc (create_ticket samplePayload sampleSys).2.store "u0".data).map
      (fun d => decide (d.created_at = d.updated_at))) = some false := by rfl

/-- C3 (amended): `analyze_tickets_with_ai` on `[]` returns the fixed
empty-state dictionary — summary `"チケットがありません"` ("no tickets"),
empty `insights` and `recommendations` — *without* a `common_issues` key
(the claim's "empty commonIssues list" is absent, not empty; see the
counterexample), and sends no prompt to the generation client. -/
theorem c3_analyze_batch_empty (client : GenClient) :
    (analyze_tickets_with_ai client []).1 = emptyBatchResult ∧
    (analyze_tickets_with_ai client []).2 = [] ∧
    jGetStr (analyze_tickets_with_ai client []).1 "summary".data =
      some "チケットがありません".data ∧
    jGet (analyze_tickets_with_ai client []).1 "insights".data = some (.arr []) ∧
    jGet (analyze_tickets_with_ai client []).1 "recommendations".data = some (.arr []) ∧
    jHasKey (analyze_tickets_with_ai client []).1 "common_issues".data = false :=
  ⟨rfl, rfl, rfl, rfl, rfl, rfl⟩

/-- C3 counterexample to the claim as stated: the empty-state result has
*no* `common_issues` member at all (the dictionary literal at the early
return omits the key), rather than an empty list. -/
theorem c3_counterexample :
    jGet (analyze_tickets_with_ai okClient []).1 "common_issues".data = none := rfl

/-- C4: neither analysis function lets a generation-client exception
escape — both are total functions into a result value (no exception type in
their codomain) — and when the client raises, `analyze_single_ticket`
returns the fallback with `urgency="不明"` ("unknown") and the error text
embedded in `response_suggestion`, and `analyze_tickets_with_ai` returns
the fallback whose `summary` embeds the error text, plus placeholder
lists. -/
theorem c4_generation_failure_fallback (client : GenClient) (e : Str) :
    (∀ t : TicketDoc, client (mkSinglePrompt t) = .error e →
      (analyze_single_ticket client t).1 = singleErrFallback e ∧
      jGetStr (analyze_single_ticket client t).1 "urgency".data =
        some "不明".data ∧
      jGetStr (analyze_single_ticket client t).1 "response_suggestion".data =
        some ("AI分析エラー: ".data ++ e)) ∧
    (∀ ts : List TicketDoc, ts ≠ [] → client (mkBatchPrompt ts) = .error e →
      (analyze_tickets_with_ai client ts).1 = batchErrFallback e ∧
      jGetStr (analyze_tickets_with_ai client ts).1 "summary".data =
        some ("AI分析エラー: ".data ++ e)) := by
  constructor
  · intro t h
    have hres : (analyze_single_ticket client t).1 = singleErrFallback e := by
      simp [analyze_single_ticket, h]
    exact ⟨hres, by rw [hres]; rfl, by rw [hres]; rfl⟩
  · intro ts hne h
    match ts, hne with
    | a :: as, _ =>
      have hres : (analyze_tickets_with_ai client (a :: as)).1 = batchErrFallback e := by
        simp [analyze_tickets_with_ai, h]
      exact ⟨hres, by rw [hres]; rfl⟩

/-- Witness for `c4_generation_failure_fallback` with a client whose
`str(e)` is `"boom"`. -/
theorem c4_witness :
    failClient (mkSinglePrompt sampleTicketDoc) = .error "boom".data ∧
    ([sampleTicketDoc] ≠ ([] : List TicketDoc)) ∧
    ((analyze_single_ticket failClient sampleTicketDoc).1 =
        singleErrFallback "boom".data ∧
      jGetStr (analyze_single_ticket failClient sampleTicketDoc).1 "urgency".data =
        some "不明".data ∧
      jGetStr (analyze_single_ticket failClient sampleTicketDoc).1
          "response_suggestion".data = some ("AI分析エラー: ".data ++ "boom".data)) ∧
    ((analyze_tickets_with_ai failClient [sampleTicketDoc]).1 =
        batchErrFallback "boom".data ∧
      jGetStr (analyze_tickets_with_ai failClient [sampleTicketDoc]).1 "summary".data =
        some ("AI分析エラー: ".data ++ "boom".data)) :=
  ⟨rfl, by simp,
    (c4_generation_failure_fallback failClient "boom".data).1 sampleTicketDoc rfl,
    (c4_generation_failure_fallback failClient "boom".data).2 [sampleTicketDoc]
      (by simp) rfl⟩

theorem respondN_grows (tid : Str) (bodies : List RespondBody) :
    ∀ (s : Sys) (doc : TicketDoc), getDoc s.store tid = some doc →
    ∃ d2, getDoc (respondN s tid bodies).store tid = some d2 ∧
      d2.responses.length = doc.responses.length + bodies.length ∧
      ∃ ext, d2.responses = doc.responses ++ ext := by
  induction bodies with
  | nil =>
    intro s doc h
    exact ⟨doc, by simpa [respondN] using h, by simp, [], by simp⟩
  | cons b bs ih =>
    intro s doc h
    have hstep : (respond_to_ticket s tid b).2.store =
        setDoc s.store tid (buildRespondUpdate doc b (s.uuids s.uuidIx)
          (s.times s.timeIx) (s.times (s.timeIx + 1))) := by
      simp [respond_to_ticket, respond_inner, h]
    have hget : getDoc (respond_to_ticket s tid b).2.store tid =
        some (buildRespondUpdate doc b (s.uuids s.uuidIx)
          (s.times s.timeIx) (s.times (s.timeIx + 1))) := by
      rw [hstep]; simp [setDoc, getDoc]
    obtain ⟨d2, hg, hlen, ext, hext⟩ := ih _ _ hget
    refine ⟨d2, ?_, ?_, ?_⟩
    · simpa [respondN] using hg
    · rw [hlen]; simp [buildRespondUpdate]; omega
    · exact ⟨{ id := s.uuids s.uuidIx
               message := b.message
               responder := b.responder.getD "admin".data
               created_at := s.times s.timeIx } :: ext,
        by rw [hext]; simp [buildRespondUpdate]⟩

/-- C6: on an existing ticket, `respond_to_ticket` returns the success
envelope, appends exactly one response — fresh id from the uuid stream,
current timestamp, `responder` defaulting to `"admin"` when unset — sets
`updated_at` to the next timestamp, overwrites `status` exactly when the
body provides one, keeps every other field and every other document
unchanged, and `N` sequential calls grow `responses` by exactly `N`
without touching the previously stored responses. -/
theorem c6_append_response (s : Sys) (tid : Str) (body : RespondBody)
    (doc : TicketDoc) (h : getDoc s.store tid = some doc) :
    (respond_to_ticket s tid body).1 = .ok respondSuccessJson ∧
    (∀ k, k ≠ tid →
      getDoc (respond_to_ticket s tid body).2.store k = getDoc s.store k) ∧
    (∃ doc', getDoc (respond_to_ticket s tid body).2.store tid = some doc' ∧
      doc'.responses = doc.responses ++
        [{ id := s.uuids s.uuidIx
           message := body.message
           responder := body.responder.getD "admin".data
           created_at := s.times s.timeIx }] ∧
      doc'.updated_at = s.times (s.timeIx + 1) ∧
      (∀ st, body.status = some st → doc'.status = st) ∧
      (body.status = none → doc'.status = doc.status) ∧
      doc'.ticket_id = doc.ticket_id ∧ doc'.user_id = doc.user_id ∧
      doc'.email = doc.email ∧ doc'.subject = doc.subject ∧
      doc'.message = doc.message ∧ doc'.category = doc.category ∧
      doc'.analysis_id = doc.analysis_id ∧
      doc'.created_at = doc.created_at) ∧
    (∀ bodies : List RespondBody, ∃ d2,
      getDoc (respondN s tid bodies).store tid = some d2 ∧
      d2.responses.length = doc.responses.length + bodies.length ∧
      ∃ ext, d2.responses = doc.responses ++ ext) := by
  have hsys : (respond_to_ticket s tid body).2 =
      { s with
        store := setDoc s.store tid (buildRespondUpdate doc body
          (s.uuids s.uuidIx) (s.times s.timeIx) (s.times (s.timeIx + 1)))
        uuidIx := s.uuidIx + 1
        timeIx := s.timeIx + 2 } := by
    simp [respond_to_ticket, respond_inner, h]
  refine ⟨by simp [respond_to_ticket, respond_inner, h], ?_, ?_, ?_⟩
  · intro k hk
    rw [hsys]
    simp only [setDoc, getDoc]
    rw [if_neg (fun hh => hk hh.symm)]
  · refine ⟨buildRespondUpdate doc body (s.uuids s.uuidIx)
        (s.times s.timeIx) (s.times (s.timeIx + 1)), ?_, rfl, rfl, ?_, ?_,
      rfl, rfl, rfl, rfl, rfl, rfl, rfl, rfl⟩
    · rw [hsys]; simp [setDoc, getDoc]
    · intro st hst; simp [buildRespondUpdate, hst]
    · intro hst; simp [buildRespondUpdate, hst]
  · intro bodies
    exact respondN_grows tid bodies s doc h

/-- Witness for `c6_append_response` on the stored sample ticket, with a
body that provides a message and a new status but no responder. -/
theorem c6_witness :
    getDoc sysWithTicket.store "t1".data = some sampleTicketDoc ∧
    ((respond_to_ticket sysWithTicket "t1".data
        ⟨some "m".data, none, some "closed".data⟩).1 = .ok respondSuccessJson ∧
    (∀ k, k ≠ "t1".data →
      getDoc (respond_to_ticket sysWithTicket "t1".data
        ⟨some "m".data, none, some "closed".data⟩).2.store k =
        getDoc sysWithTicket.store k) ∧
    (∃ doc', getDoc (respond_to_ticket sysWithTicket "t1".data
        ⟨some "m".data, none, some "closed".data⟩).2.store "t1".data = some doc' ∧
      doc'.responses = sampleTicketDoc.responses ++
        [{ id := sysWithTicket.uuids sysWithTicket.uuidIx
           message := (⟨some "m".data, none, some "closed".data⟩ : RespondBody).message
           responder := (⟨some "m".data, none, some "closed".data⟩ :
              RespondBody).responder.getD "admin".data
           created_at := sysWithTicket.times sysWithTicket.timeIx }] ∧
      doc'.updated_at = sysWithTicket.times (sysWithTicket.timeIx + 1) ∧
      (∀ st, (⟨some "m".data, none, some "closed".data⟩ : RespondBody).status =
          some st → doc'.status = st) ∧
      ((⟨some "m".data, none, some "closed".data⟩ : RespondBody).status = none →
        doc'.status = sampleTicketDoc.status) ∧
      doc'.ticket_id = sampleTicketDoc.ticket_id ∧
      doc'.user_id = sampleTicketDoc.user_id ∧
      doc'.email = sampleTicketDoc.email ∧
      doc'.subject = sampleTicketDoc.subject ∧
      doc'.message = sampleTicketDoc.message ∧
      doc'.category = sampleTicketDoc.category ∧
      doc'.analysis_id = sampleTicketDoc.analysis_id ∧
      doc'.created_at = sampleTicketDoc.created_at) ∧
    (∀ bodies : List RespondBody, ∃ d2,
      getDoc (respondN sysWithTicket "t1".data bodies).store "t1".data = some d2 ∧
      d2.responses.length = sampleTicketDoc.responses.length + bodies.length ∧
      ∃ ext, d2.responses = sampleTicketDoc.responses ++ ext)) :=
  ⟨rfl, c6_append_response sysWithTicket "t1".data
    ⟨some "m".data, none, some "closed".data⟩ sampleTicketDoc rfl⟩

/-- C7: `respond_to_ticket` is a read-then-full-overwrite.  Interleaving
two appends on the same ticket so that both `.get()` reads happen before
either `.update()` write — the race the spec demands be impossible — makes
the second write replace the whole `responses` array computed from the
shared snapshot: afterwards only the second response (`"ub"`) is stored,
`responses` has length 1, and the first append is silently lost (the claim
requires both to be present). -/
theorem c7_race_loses_append :
    (getDoc
      (setDoc
        (setDoc [("t1".data, sampleTicketDoc)] "t1".data
          (buildRespondUpdate sampleTicketDoc ⟨some "first".data, none, none⟩
            "ua".data 1 2))
        "t1".data
        (buildRespondUpdate sampleTicketDoc ⟨some "second".data, none, none⟩
          "ub".data 3 4))
      "t1".data).map (fun d => (d.responses.length, d.responses.map ResponseDoc.id)) =
    some (1, ["ub".data]) := by rfl

theorem myJoin_mem_decomp (xs : List Str) (x : Str) (hx : x ∈ xs) :
    ∃ a b, myJoin xs = a ++ (x ++ b) := by
  induction xs with
  | nil => cases hx
  | cons y ys ih =>
    cases hx with
    | head =>
      cases ys with
      | nil => exact ⟨[], [], by simp [myJoin]⟩
      | cons z zs => exact ⟨[], '\n' :: myJoin (z :: zs), by simp [myJoin]⟩
    | tail _ hmem =>
      obtain ⟨a, b, hab⟩ := ih hmem
      cases ys with
      | nil => cases hmem
      | cons z zs =>
        exact ⟨y ++ '\n' :: a, b, by simp [myJoin, hab]⟩

/-- C8: on a non-empty ticket list, `analyze_tickets_with_ai` sends exactly
one prompt to the generation client (whatever the client then does); the
prompt depends only on the first 10 tickets in caller order
(`tickets[:10]`, no re-sorting); and for each of those tickets the prompt
embeds the line carrying its id, category, subject and the first 100 code
points of its message (`message[:100]`). -/
theorem c8_batch_prompt_shape (client : GenClient) (ts : List TicketDoc)
    (hne : ts ≠ []) :
    (analyze_tickets_with_ai client ts).2 = [mkBatchPrompt ts] ∧
    mkBatchPrompt ts = mkBatchPrompt (ts.take 10) ∧
    ∀ t ∈ ts.take 10, ∃ a b,
      mkBatchPrompt ts =
        a ++ (("ID: ".data ++ t.ticket_id ++ ", カテゴリ: ".data ++ t.category ++
          ", 件名: ".data ++ t.subject ++ ", 内容: ".data ++ t.message.take 100) ++ b) := by
  refine ⟨?_, ?_, ?_⟩
  · match ts, hne with
    | a :: as, _ =>
      cases hc : client (mkBatchPrompt (a :: as)) with
      | error e => simp [analyze_tickets_with_ai, hc]
      | ok text =>
        cases hx : extract text with
        | error e => simp [analyze_tickets_with_ai, hc, hx]
        | ok j => simp [analyze_tickets_with_ai, hc, hx]
  · simp [mkBatchPrompt, List.take_take]
  · intro t ht
    have hmem : ticketSummary t ∈ (ts.take 10).map ticketSummary :=
      List.mem_map_of_mem _ ht
    obtain ⟨a, b, hab⟩ := myJoin_mem_decomp _ _ hmem
    refine ⟨batchHeader ++ a, b ++ batchFooter, ?_⟩
    show mkBatchPrompt ts =
      (batchHeader ++ a) ++ (ticketSummary t ++ (b ++ batchFooter))
    simp only [mkBatchPrompt, hab, List.append_assoc]

/-- Witness for `c8_batch_prompt_shape` on a one-ticket list. -/
theorem c8_witness :
    ([sampleTicketDoc] ≠ ([] : List TicketDoc)) ∧
    ((analyze_tickets_with_ai okClient [sampleTicketDoc]).2 =
      [mkBatchPrompt [sampleTicketDoc]] ∧
    mkBatchPrompt [sampleTicketDoc] = mkBatchPrompt ([sampleTicketDoc].take 10) ∧
    ∀ t ∈ [sampleTicketDoc].take 10, ∃ a b,
      mkBatchPrompt [sampleTicketDoc] =
        a ++ (("ID: ".data ++ t.ticket_id ++ ", カテゴリ: ".data ++ t.category ++
          ", 件名: ".data ++ t.subject ++ ", 内容: ".data ++ t.message.take 100) ++ b)) :=
  ⟨by simp, c8_batch_prompt_shape okClient [sampleTicketDoc] (by simp)⟩

/-- C9 (amended): when the generation client succeeds but its text fails
strict decoding, `analyze_tickets_with_ai` falls back to a result whose
`summary` is the first 200 code points of the raw response *followed by
`"..."`* plus the fixed placeholder lists, and `analyze_single_ticket`
falls back to `urgency="中"` ("medium"), the ticket's own category, the
generic response suggestion, and exactly the two fixed placeholder
improvements.  (The claim as stated — summary equal to the bare first 200
characters — fails by the appended ellipsis; see the counterexample.) -/
theorem c9_parse_failure_fallback (client : GenClient) (text : Str) :
    (∀ ts : List TicketDoc, ts ≠ [] → client (mkBatchPrompt ts) = .ok text →
      (∃ err, extract text = .error err) →
      (analyze_tickets_with_ai client ts).1 = batchParseFallback text ∧
      jGetStr (analyze_tickets_with_ai client ts).1 "summary".data =
        some (text.take 200 ++ "...".data) ∧
      jGet (analyze_tickets_with_ai client ts).1 "common_issues".data =
        some (.arr [.str "分析中".data, .str "データ処理中".data])) ∧
    (∀ t : TicketDoc, client (mkSinglePrompt t) = .ok text →
      (∃ err, extract text = .error err) →
      (analyze_single_ticket client t).1 = singleParseFallback t ∧
      jGetStr (analyze_single_ticket client t).1 "urgency".data =
        some "中".data ∧
      jGetStr (analyze_single_ticket client t).1 "category_suggestion".data =
        some t.category ∧
      jGetStr (analyze_single_ticket client t).1 "response_suggestion".data =
        some "詳細を確認して適切に対応してください。".data ∧
      jGet (analyze_single_ticket client t).1 "related_improvements".data =
        some (.arr [.str "ユーザーガイドの改善".data,
          .str "エラーメッセージの見直し".data])) := by
  constructor
  · intro ts hne hok herr
    obtain ⟨err, herr⟩ := herr
    match ts, hne with
    | a :: as, _ =>
      have hres : (analyze_tickets_with_ai client (a :: as)).1 =
          batchParseFallback text := by
        simp [analyze_tickets_with_ai, hok, herr]
      exact ⟨hres, by rw [hres]; rfl, by rw [hres]; rfl⟩
  · intro t hok herr
    obtain ⟨err, herr⟩ := herr
    have hres : (analyze_single_ticket client t).1 = singleParseFallback t := by
      simp [analyze_single_ticket, hok, herr]
    exact ⟨hres, by rw [hres]; rfl, by rw [hres]; rfl, by rw [hres]; rfl,
      by rw [hres]; rfl⟩

/-- Witness for `c9_parse_failure_fallback`: the client answers the
unparseable text `"hello"`. -/
theorem c9_witness :
    ([sampleTicketDoc] ≠ ([] : List TicketDoc)) ∧
    okClient (mkBatchPrompt [sampleTicketDoc]) = .ok "hello".data ∧
    okClient (mkSinglePrompt sampleTicketDoc) = .ok "hello".data ∧
    (∃ err, extract "hello".data = .error err) ∧
    ((analyze_tickets_with_ai okClient [sampleTicketDoc]).1 =
      batchParseFallback "hello".data ∧
      jGetStr (analyze_tickets_with_ai okClient [sampleTicketDoc]).1 "summary".data =
        some ("hello".data.take 200 ++ "...".data) ∧
      jGet (analyze_tickets_with_ai okClient [sampleTicketDoc]).1 "common_issues".data =
        some (.arr [.str "分析中".data, .str "データ処理中".data])) ∧
    ((analyze_single_ticket okClient sampleTicketDoc).1 =
        singleParseFallback sampleTicketDoc ∧
      jGetStr (analyze_single_ticket okClient sampleTicketDoc).1 "urgency".data =
        some "中".data ∧
      jGetStr (analyze_single_ticket okClient sampleTicketDoc).1
          "category_suggestion".data = some sampleTicketDoc.category ∧
      jGetStr (analyze_single_ticket okClient sampleTicketDoc).1
          "response_suggestion".data =
        some "詳細を確認して適切に対応してください。".data ∧
      jGet (analyze_single_ticket okClient sampleTicketDoc).1
          "related_improvements".data =
        some (.arr [.str "ユーザーガイドの改善".data,
          .str "エラーメッセージの見直し".data])) :=
  ⟨by simp, rfl, rfl, ⟨"Expecting value".data, rfl⟩,
    (c9_parse_failure_fallback okClient "hello".data).1 [sampleTicketDoc]
      (by simp) rfl ⟨"Expecting value".data, rfl⟩,
    (c9_parse_failure_fallback okClient "hello".data).2 sampleTicketDoc
      rfl ⟨"Expecting value".data, rfl⟩⟩

/-- C9 counterexample to the claim as stated: with raw response `"hello"`,
the fallback `summary` is `"hello..."`, not the bare first-200-characters
prefix `"hello"`. -/
theorem c9_counterexample :
    jGetStr (analyze_tickets_with_ai okClient [sampleTicketDoc]).1 "summary".data =
      some "hello...".data ∧
    "hello...".data ≠ "hello".data.take 200 :=
  ⟨rfl, by decide⟩

/-- C10: a respond body without a `"message"` key is not rejected: the
handler reads it with `response.get("message")`, so the appended response
simply carries a null message and the success envelope is returned. -/
theorem c10_missing_message_not_rejected (s : Sys) (tid : Str)
    (doc : TicketDoc) (resp st : Option Str)
    (h : getDoc s.store tid = some doc) :
    (respond_to_ticket s tid ⟨none, resp, st⟩).1 = .ok respondSuccessJson ∧
    ∃ doc', getDoc (respond_to_ticket s tid ⟨none, resp, st⟩).2.store tid =
        some doc' ∧
      doc'.responses.getLast? =
        some { id := s.uuids s.uuidIx
               message := none
               responder := resp.getD "admin".data
               created_at := s.times s.timeIx } := by
  have hsys : (respond_to_ticket s tid ⟨none, resp, st⟩).2 =
      { s with
        store := setDoc s.store tid (buildRespondUpdate doc ⟨none, resp, st⟩
          (s.uuids s.uuidIx) (s.times s.timeIx) (s.times (s.timeIx + 1)))
        uuidIx := s.uuidIx + 1
        timeIx := s.timeIx + 2 } := by
    simp [respond_to_ticket, respond_inner, h]
  refine ⟨by simp [respond_to_ticket, respond_inner, h],
    buildRespondUpdate doc ⟨none, resp, st⟩ (s.uuids s.uuidIx)
      (s.times s.timeIx) (s.times (s.timeIx + 1)), ?_, ?_⟩
  · rw [hsys]; simp [setDoc, getDoc]
  · simp [buildRespondUpdate]

/-- Witness for `c10_missing_message_not_rejected` on the stored sample
ticket with an entirely empty body. -/
theorem c10_witness :
    getDoc sysWithTicket.store "t1".data = some sampleTicketDoc ∧
    ((respond_to_ticket sysWithTicket "t1".data ⟨none, none, none⟩).1 =
      .ok respondSuccessJson ∧
    ∃ doc', getDoc (respond_to_ticket sysWithTicket "t1".data
        ⟨none, none, none⟩).2.store "t1".data = some doc' ∧
      doc'.responses.getLast? =
        some { id := sysWithTicket.uuids sysWithTicket.uuidIx
               message := none
               responder := (none : Option Str).getD "admin".data
               created_at := sysWithTicket.times sysWithTicket.timeIx }) :=
  ⟨rfl, c10_missing_message_not_rejected sysWithTicket "t1".data sampleTicketDoc
    none none rfl⟩

theorem sub1F_nil (f : Nat) : sub1F f [] = [] := by cases f <;> rfl

theorem sub1F_succ_cons (fuel : Nat) (c : Char) (rest : Str) :
    sub1F (fuel + 1) (c :: rest) =
      if leadsWith fenceJson (c :: rest) then
        sub1F fuel (((c :: rest).drop 7).dropWhile isPySpace)
      else c :: sub1F fuel rest := rfl

theorem dropWhile_length_le (p : Char → Bool) (l : Str) :
    (l.dropWhile p).length ≤ l.length := by
  induction l with
  | nil => simp
  | cons c cs ih =>
    by_cases h : p c
    · rw [List.dropWhile_cons_of_pos h]
      simp only [List.length_cons]
      omega
    · rw [List.dropWhile_cons_of_neg h]

theorem getLast_app (a b : Str) (hb : b ≠ []) : (a ++ b).getLast? = b.getLast? := by
  rw [List.getLast?_append]
  obtain ⟨x, hx⟩ := Option.isSome_iff_exists.mp (List.getLast?_isSome.mpr hb)
  rw [hx]
  rfl

theorem getLast_mem (l : Str) (a : Char) (h : l.getLast? = some a) : a ∈ l := by
  induction l with
  | nil => cases h
  | cons c cs ih =>
    cases cs with
    | nil =>
      simp only [List.getLast?_singleton, Option.some.injEq] at h
      simp [h]
    | cons d ds =>
      rw [List.getLast?_cons_cons] at h
      exact List.mem_cons_of_mem _ (ih h)

theorem sub1F_fuel_irrel (f : Nat) : ∀ (g : Nat) (l : Str),
    l.length ≤ f → l.length ≤ g → sub1F f l = sub1F g l := by
  induction f with
  | zero =>
    intro g l hf _
    have : l = [] := List.eq_nil_of_length_eq_zero (by omega)
    subst this
    rw [sub1F_nil, sub1F_nil]
  | succ f' ih =>
    intro g l hf hg
    cases l with
    | nil => rw [sub1F_nil, sub1F_nil]
    | cons c rest =>
      cases g with
      | zero => simp at hg
      | succ g' =>
        rw [sub1F_succ_cons, sub1F_succ_cons]
        by_cases hm : leadsWith fenceJson (c :: rest) = true
        · rw [if_pos hm, if_pos hm]
          obtain ⟨r, hr⟩ := (leadsWith_iff _ _).mp hm
          have hlen7 : (c :: rest).length = 7 + r.length := by
            rw [hr, List.length_append]
            rfl
          have hdw : (((c :: rest).drop 7).dropWhile isPySpace).length ≤ r.length := by
            have h1 := dropWhile_length_le isPySpace ((c :: rest).drop 7)
            have h2 : ((c :: rest).drop 7).length = r.length := by
              rw [hr]
              rw [show (7 : Nat) = fenceJson.length from rfl, List.drop_left]
            omega
          exact ih g' _ (by omega) (by omega)
        · rw [if_neg hm, if_neg hm]
          have : rest.length ≤ f' := by simp at hf; omega
          have hg' : rest.length ≤ g' := by simp at hg; omega
          rw [ih g' rest this hg']

theorem sub1F_fence_step (fuel : Nat) (r : Str) :
    sub1F (fuel + 1) (fenceJson ++ r) = sub1F fuel (r.dropWhile isPySpace) := by
  obtain ⟨c, rest, hcr⟩ : ∃ c rest, fenceJson ++ r = c :: rest := by
    cases hfr : fenceJson ++ r with
    | nil => exact absurd (List.append_eq_nil.mp hfr).1 (by decide)
    | cons c rest => exact ⟨c, rest, rfl⟩
  rw [hcr, sub1F_succ_cons, ← hcr,
    if_pos ((leadsWith_iff _ _).mpr ⟨r, rfl⟩)]
  have hdrop : (fenceJson ++ r).drop 7 = r := by
    rw [show (7 : Nat) = fenceJson.length from rfl, List.drop_left]
  rw [hdrop]

theorem sub1F_nomatch_step (fuel : Nat) (c : Char) (rest : Str)
    (h : leadsWith fenceJson (c :: rest) = false) :
    sub1F (fuel + 1) (c :: rest) = c :: sub1F fuel rest := by
  rw [sub1F_succ_cons, if_neg (by simp [h])]

theorem leadsWith_split (p : Str) : ∀ (t s : Str), leadsWith p (t ++ s) = true →
    leadsWith p t = true ∨
      ∃ p1 p2, p = p1 ++ p2 ∧ p2 ≠ [] ∧ t = p1 ∧ leadsWith p2 s = true := by
  induction p with
  | nil => intro t s _; left; cases t <;> rfl
  | cons x xs ih =>
    intro t s h
    cases t with
    | nil =>
      right
      exact ⟨[], x :: xs, rfl, by simp, rfl, by simpa using h⟩
    | cons c cs =>
      simp only [List.cons_append, leadsWith, Bool.and_eq_true, beq_iff_eq] at h
      obtain ⟨heq, h2⟩ := h
      rcases ih cs s h2 with h3 | ⟨p1, p2, hp, hne, ht, hs⟩
      · left
        simp [leadsWith, heq, h3]
      · right
        refine ⟨x :: p1, p2, ?_, hne, ?_, hs⟩
        · rw [hp, List.cons_append]
        · rw [← heq, ht]

theorem no_cross_fence (t s : Str) (hn : leadsWith fenceJson t = false) :
    leadsWith fenceJson (t ++ '\n' :: s) = false := by
  by_contra hcon
  rw [Bool.not_eq_false] at hcon
  rcases leadsWith_split fenceJson t ('\n' :: s) hcon with h1 | ⟨p1, p2, hp, hne, _, hs⟩
  · rw [h1] at hn; cases hn
  · cases p2 with
    | nil => exact hne rfl
    | cons q qs =>
      simp only [leadsWith, Bool.and_eq_true, beq_iff_eq] at hs
      obtain ⟨rfl, _⟩ := hs
      have hmem : ('\n' : Char) ∈ fenceJson := by
        rw [hp]
        exact List.mem_append_right p1 (List.mem_cons_self _ _)
      exact absurd hmem (by decide)

theorem sub1F_append_tail : ∀ (f : Nat) (t : Str), t.length ≤ f →
    (∀ c, t.getLast? = some c → isPySpace c = false ∧ c ≠ 'n') →
    sub1F (f + 4) (t ++ '\n' :: fence3) = sub1F f t ++ '\n' :: fence3 := by
  intro f
  induction f with
  | zero =>
    intro t hlen _
    have : t = [] := List.eq_nil_of_length_eq_zero (by omega)
    subst this
    rw [sub1F_nil]
    simp only [List.nil_append]
    decide
  | succ f' ih =>
    intro t hlen htail
    cases t with
    | nil =>
      rw [sub1F_nil]
      simp only [List.nil_append]
      have hlen4 : ('\n' :: fence3).length = 4 := rfl
      rw [sub1F_fuel_irrel (f' + 1 + 4) 4 ('\n' :: fence3)
        (by rw [hlen4]; omega) (le_of_eq hlen4)]
      decide
    | cons c rest =>
      by_cases hm : leadsWith fenceJson (c :: rest) = true
      · obtain ⟨r, hr⟩ := (leadsWith_iff _ _).mp hm
        have hrne : r ≠ [] := by
          intro h0
          subst h0
          simp only [List.append_nil] at hr
          have : (c :: rest).getLast? = some 'n' := by rw [hr]; decide
          exact (htail 'n' this).2 rfl
        have hlast : ∀ x, r.getLast? = some x → isPySpace x = false ∧ x ≠ 'n' := by
          intro x hx
          apply htail
          rw [hr, getLast_app fenceJson r hrne, hx]
        obtain ⟨lc, hlc⟩ := Option.isSome_iff_exists.mp (List.getLast?_isSome.mpr hrne)
        have hdwne : r.dropWhile isPySpace ≠ [] := by
          intro hnil
          rw [List.dropWhile_eq_nil_iff] at hnil
          have := hnil lc (getLast_mem r lc hlc)
          rw [(hlast lc hlc).1] at this
          cases this
        have hdwlast : ∀ x, (r.dropWhile isPySpace).getLast? = some x →
            isPySpace x = false ∧ x ≠ 'n' := by
          intro x hx
          apply hlast
          conv_lhs => rw [← List.takeWhile_append_dropWhile (p := isPySpace) (l := r)]
          rw [getLast_app _ _ hdwne, hx]
        have hsplit : (r ++ '\n' :: fence3).dropWhile isPySpace =
            r.dropWhile isPySpace ++ '\n' :: fence3 := by
          rw [List.dropWhile_append, if_neg (by simp [hdwne])]
        have hlen7 : (c :: rest).length = 7 + r.length := by
          rw [hr, List.length_append]
          rfl
        have hdwlen : (r.dropWhile isPySpace).length ≤ r.length :=
          dropWhile_length_le isPySpace r
        calc sub1F (f' + 1 + 4) (c :: rest ++ '\n' :: fence3)
            = sub1F (f' + 4 + 1) (fenceJson ++ (r ++ '\n' :: fence3)) := by
              rw [hr]; simp
          _ = sub1F (f' + 4) ((r ++ '\n' :: fence3).dropWhile isPySpace) :=
              sub1F_fence_step (f' + 4) (r ++ '\n' :: fence3)
          _ = sub1F (f' + 4) (r.dropWhile isPySpace ++ '\n' :: fence3) := by
              rw [hsplit]
          _ = sub1F (f' + 4) (r.dropWhile isPySpace ++ '\n' :: fence3) := rfl
          _ = sub1F f' (r.dropWhile isPySpace) ++ '\n' :: fence3 :=
              ih (r.dropWhile isPySpace) (by omega) hdwlast
          _ = sub1F (f' + 1) (c :: rest) ++ '\n' :: fence3 := by
              rw [hr, sub1F_fence_step f' r]
      · have hm' : leadsWith fenceJson (c :: rest) = false := by
          cases h : leadsWith fenceJson (c :: rest)
          · rfl
          · exact absurd h hm
        have hcross : leadsWith fenceJson ((c :: rest) ++ '\n' :: fence3) = false :=
          no_cross_fence (c :: rest) fence3 hm'
        have hresttail : ∀ x, rest.getLast? = some x →
            isPySpace x = false ∧ x ≠ 'n' := by
          intro x hx
          apply htail
          cases hres : rest with
          | nil => rw [hres] at hx; cases hx
          | cons d ds =>
            rw [List.getLast?_cons_cons, ← hres]
            exact hx
        have hstep : sub1F (f' + 4 + 1) (c :: (rest ++ '\n' :: fence3)) =
            c :: sub1F (f' + 4) (rest ++ '\n' :: fence3) :=
          sub1F_nomatch_step (f' + 4) c (rest ++ '\n' :: fence3)
            (by simpa using hcross)
        calc sub1F (f' + 1 + 4) (c :: rest ++ '\n' :: fence3)
            = sub1F (f' + 4 + 1) (c :: (rest ++ '\n' :: fence3)) := by simp
          _ = c :: sub1F (f' + 4) (rest ++ '\n' :: fence3) := hstep
          _ = c :: (sub1F f' rest ++ '\n' :: fence3) := by
              rw [ih rest (by simp at hlen; omega) hresttail]
          _ = (c :: sub1F f' rest) ++ '\n' :: fence3 := rfl
          _ = sub1F (f' + 1) (c :: rest) ++ '\n' :: fence3 := by
              rw [sub1F_nomatch_step f' c rest hm']

theorem sub1_eq_sub1F (l : Str) (f : Nat) (h : l.length ≤ f) : sub1 l = sub1F f l :=
  sub1F_fuel_irrel l.length f l le_rfl h

theorem mySplit_ne_nil (l : Str) : mySplit l ≠ [] := by
  induction l with
  | nil => simp [mySplit]
  | cons c cs ih =>
    by_cases h : c = '\n'
    · simp [mySplit, h]
    · simp only [mySplit, if_neg h]
      cases hs : mySplit cs with
      | nil => simp
      | cons a as => simp

theorem mySplit_append (a b : Str) : mySplit (a ++ '\n' :: b) = mySplit a ++ mySplit b := by
  induction a with
  | nil => simp [mySplit]
  | cons c cs ih =>
    by_cases h : c = '\n'
    · subst h
      have e1 : mySplit ('\n' :: (cs ++ '\n' :: b)) = [] :: mySplit (cs ++ '\n' :: b) := rfl
      have e2 : mySplit ('\n' :: cs) = [] :: mySplit cs := rfl
      rw [List.cons_append, e1, e2, ih, List.cons_append]
    · obtain ⟨h0, hr, hsp⟩ : ∃ h0 hr, mySplit cs = h0 :: hr := by
        cases hs : mySplit cs with
        | nil => exact absurd hs (mySplit_ne_nil cs)
        | cons h0 hr => exact ⟨h0, hr, rfl⟩
      have e1 : mySplit (c :: cs) = (c :: h0) :: hr := by
        simp only [mySplit, if_neg h, hsp]
      have e2 : mySplit (c :: (cs ++ '\n' :: b)) = (c :: h0) :: (hr ++ mySplit b) := by
        simp only [mySplit, if_neg h, ih, hsp, List.cons_append]
      rw [List.cons_append, e2, e1, List.cons_append]

theorem myJoin_append_nil (ys : List Str) (h : ys ≠ []) :
    myJoin (ys ++ [[]]) = myJoin ys ++ ['\n'] := by
  induction ys with
  | nil => exact absurd rfl h
  | cons y ys' ih =>
    cases ys' with
    | nil => rfl
    | cons z zs =>
      show y ++ '\n' :: myJoin ((z :: zs) ++ [[]]) =
        (y ++ '\n' :: myJoin (z :: zs)) ++ ['\n']
      rw [ih (by simp)]
      simp [List.append_assoc]

theorem sub2_append_fence (x : Str) : sub2 (x ++ '\n' :: fence3) = sub2 x ++ ['\n'] := by
  unfold sub2
  rw [mySplit_append, List.map_append,
    show (mySplit fence3).map lineStrip = [[]] from by decide]
  exact myJoin_append_nil _ (fun hm => mySplit_ne_nil x (List.map_eq_nil_iff.mp hm))

theorem pyStrip_append_nl (y : Str) : pyStrip (y ++ ['\n']) = pyStrip y := by
  unfold pyStrip stripEnd
  simp only [List.reverse_append, List.reverse_singleton, List.singleton_append]
  rw [List.dropWhile_cons_of_pos (by decide)]

theorem digitChar_is_digit (d : Nat) (h : d < 10) : isDigitCh (digitChar d) = true := by
  interval_cases d <;> decide

theorem digit_not_space_n (c : Char) (h : isDigitCh c = true) :
    isPySpace c = false ∧ c ≠ 'n' := by
  have hb : 48 ≤ c.toNat ∧ c.toNat ≤ 57 := by
    simpa [isDigitCh, Bool.and_eq_true, decide_eq_true_eq] using h
  constructor
  · cases hsp : isPySpace c
    · rfl
    · exfalso
      simp only [isPySpace, Bool.or_eq_true, decide_eq_true_eq] at hsp
      rcases hsp with ((((h' | h') | h') | h') | h') | h' <;>
        (subst h'; exact absurd hb (by decide))
  · intro hn
    subst hn
    exact absurd hb (by decide)

theorem natChars_shape (n : Nat) : ∃ c cs, natChars n = c :: cs ∧ isDigitCh c = true := by
  induction n using Nat.strong_induction_on with
  | _ n ih =>
    rw [natChars]
    by_cases h : n < 10
    · rw [dif_pos h]
      exact ⟨digitChar n, [], rfl, digitChar_is_digit n h⟩
    · rw [dif_neg h]
      obtain ⟨c, cs, hcs, hd⟩ := ih (n / 10) (Nat.div_lt_self (by omega) (by omega))
      refine ⟨c, cs ++ [digitChar (n % 10)], ?_, hd⟩
      rw [hcs]
      rfl

theorem natChars_last (n : Nat) :
    ∃ c, (natChars n).getLast? = some c ∧ isDigitCh c = true := by
  rw [natChars]
  by_cases h : n < 10
  · rw [dif_pos h]
    exact ⟨digitChar n, rfl, digitChar_is_digit n h⟩
  · rw [dif_neg h]
    exact ⟨digitChar (n % 10), List.getLast?_concat _,
      digitChar_is_digit _ (Nat.mod_lt _ (by omega))⟩

theorem serInt_shape (n : Int) :
    ∃ c cs, serInt n = c :: cs ∧ isPySpace c = false := by
  unfold serInt
  by_cases h : n < 0
  · rw [if_pos h]
    exact ⟨'-', natChars n.natAbs, rfl, by decide⟩
  · rw [if_neg h]
    obtain ⟨c, cs, hcs, hd⟩ := natChars_shape n.natAbs
    exact ⟨c, cs, hcs, (digit_not_space_n c hd).1⟩

theorem serInt_last (n : Int) :
    ∃ c, (serInt n).getLast? = some c ∧ isPySpace c = false ∧ c ≠ 'n' := by
  unfold serInt
  obtain ⟨c, hc, hd⟩ := natChars_last n.natAbs
  obtain ⟨c0, cs0, hcs, _⟩ := natChars_shape n.natAbs
  by_cases h : n < 0
  · rw [if_pos h]
    refine ⟨c, ?_, (digit_not_space_n c hd).1, (digit_not_space_n c hd).2⟩
    rw [show ('-' :: natChars n.natAbs) = ['-'] ++ natChars n.natAbs from rfl,
      getLast_app _ _ (by rw [hcs]; simp), hc]
  · rw [if_neg h]
    exact ⟨c, hc, (digit_not_space_n c hd).1, (digit_not_space_n c hd).2⟩

theorem ser_head (v : Json) : ∃ c cs, ser v = c :: cs ∧ isPySpace c = false := by
  cases v with
  | null =>
    refine ⟨'n', "ull".data, ?_, by decide⟩
    simp only [ser]
  | bool b =>
    cases b with
    | true =>
      refine ⟨'t', "rue".data, ?_, by decide⟩
      simp only [ser]
    | false =>
      refine ⟨'f', "alse".data, ?_, by decide⟩
      simp only [ser]
  | num n =>
    obtain ⟨c, cs, hcs, hsp⟩ := serInt_shape n
    refine ⟨c, cs, ?_, hsp⟩
    simp only [ser]
    exact hcs
  | str s =>
    refine ⟨'"', escStr s ++ ['"'], ?_, by decide⟩
    simp only [ser]
  | arr xs =>
    refine ⟨'[', serList xs ++ [']'], ?_, by decide⟩
    simp only [ser]
  | obj kvs =>
    refine ⟨lbrace, serObj kvs ++ [rbrace], ?_, by decide⟩
    simp only [ser]

theorem ser_last (v : Json) :
    ∀ c, (ser v).getLast? = some c → isPySpace c = false ∧ c ≠ 'n' := by
  cases v with
  | null =>
    intro c hc
    rw [show (ser Json.null).getLast? = some 'l' from by simp only [ser]; decide] at hc
    cases hc
    exact ⟨by decide, by decide⟩
  | bool b =>
    cases b with
    | true =>
      intro c hc
      rw [show (ser (Json.bool true)).getLast? = some 'e' from by
        simp only [ser]; decide] at hc
      cases hc
      exact ⟨by decide, by decide⟩
    | false =>
      intro c hc
      rw [show (ser (Json.bool false)).getLast? = some 'e' from by
        simp only [ser]; decide] at hc
      cases hc
      exact ⟨by decide, by decide⟩
  | num n =>
    intro c hc
    obtain ⟨c0, hc0, hsp, hn⟩ := serInt_last n
    simp only [ser] at hc
    rw [hc0] at hc
    cases hc
    exact ⟨hsp, hn⟩
  | str s =>
    intro c hc
    simp only [ser] at hc
    rw [show ('"' :: (escStr s ++ ['"'])) = ('"' :: escStr s) ++ ['"'] from rfl,
      List.getLast?_concat] at hc
    cases hc
    exact ⟨by decide, by decide⟩
  | arr xs =>
    intro c hc
    simp only [ser] at hc
    rw [show ('[' :: (serList xs ++ [']'])) = ('[' :: serList xs) ++ [']'] from rfl,
      List.getLast?_concat] at hc
    cases hc
    exact ⟨by decide, by decide⟩
  | obj kvs =>
    intro c hc
    simp only [ser] at hc
    rw [show (lbrace :: (serObj kvs ++ [rbrace])) = (lbrace :: serObj kvs) ++ [rbrace]
        from rfl,
      List.getLast?_concat] at hc
    cases hc
    exact ⟨by decide, by decide⟩

theorem sub1_fenceWrap (t : Str) (c0 : Char) (cs0 : Str) (ht : t = c0 :: cs0)
    (hh : isPySpace c0 = false)
    (htail : ∀ c, t.getLast? = some c → isPySpace c = false ∧ c ≠ 'n') :
    sub1 (fenceWrap t) = sub1 t ++ '\n' :: fence3 := by
  have h7 : fenceJson.length = 7 := rfl
  have h3 : fence3.length = 3 := rfl
  have hlenW : (fenceWrap t).length = t.length + 12 := by
    simp only [fenceWrap, List.length_append, List.length_cons]
    omega
  have hlenT : (t ++ '\n' :: fence3).length = t.length + 4 := by
    simp only [List.length_append, List.length_cons]
    omega
  rw [sub1_eq_sub1F (fenceWrap t) (t.length + 12) (le_of_eq hlenW)]
  calc sub1F (t.length + 12) (fenceWrap t)
      = sub1F (t.length + 11 + 1) (fenceJson ++ ('\n' :: (t ++ '\n' :: fence3))) := rfl
    _ = sub1F (t.length + 11) (('\n' :: (t ++ '\n' :: fence3)).dropWhile isPySpace) :=
        sub1F_fence_step _ _
    _ = sub1F (t.length + 11) (t ++ '\n' :: fence3) := by
        rw [List.dropWhile_cons_of_pos (by decide)]
        rw [ht, List.cons_append, List.dropWhile_cons_of_neg (by simp [hh])]
    _ = sub1F (t.length + 4) (t ++ '\n' :: fence3) :=
        sub1F_fuel_irrel _ _ _ (by rw [hlenT]; omega) (le_of_eq hlenT)
    _ = sub1F t.length t ++ '\n' :: fence3 := sub1F_append_tail t.length t le_rfl htail
    _ = sub1 t ++ '\n' :: fence3 := rfl

theorem cleanText_fenceWrap (t : Str) (c0 : Char) (cs0 : Str) (ht : t = c0 :: cs0)
    (hh : isPySpace c0 = false)
    (htail : ∀ c, t.getLast? = some c → isPySpace c = false ∧ c ≠ 'n') :
    cleanText (fenceWrap t) = cleanText t := by
  unfold cleanText
  rw [sub1_fenceWrap t c0 cs0 ht hh htail, sub2_append_fence, pyStrip_append_nl]

/-- C5: wrapping a serialized JSON value in a code fence
(`"```json\n" + text + "\n```"`) does not change what `extract` returns —
the fence-stripping regexes remove exactly the added fence lines, so the
decoded value (or the decode failure) is identical to the unfenced case;
and on truncated structured text `extract` signals unparseable as an
`Except.error` value.  (`extract` is a total function into `Except` by
construction: the decode failure is a value, never an uncaught fault.) -/
theorem c5_extract_fence_equiv :
    (∀ v : Json, extract (fenceWrap (ser v)) = extract (ser v)) ∧
    (∃ e, extract ("\x7b\"a\": 1").data = Except.error e) := by
  constructor
  · intro v
    unfold extract
    obtain ⟨c0, cs0, hser, hsp⟩ := ser_head v
    rw [cleanText_fenceWrap (ser v) c0 cs0 hser hsp (ser_last v)]
  · exact ⟨"Expecting delimiter".data, rfl⟩

end SupportApi
